import Mathlib

/-!
Shallow embedding of the Voice Turn-Taking and Barge-In Engine of the
soulmate-ai LiveKit agent (src/unnamed/part_004, the agent variant at
lines 356-1558; all line numbers below refer to that file).

Conventions of the embedding:
  * Audio samples are `Int` (signed 16-bit PCM values); a frame or a buffer is
    a `List Int`.
  * Text is `List Char` (JS strings), so that every operation reduces in the
    kernel.
  * Wall-clock times (`Date.now()`) are passed in explicitly as `Nat`
    millisecond values.
  * The JS loudness test `Math.sqrt(sum / len) > T` is embedded exactly as
    `sum > T^2 * len`: for `len > 0` the two are equivalent because squaring is
    monotone on nonnegative reals, and for `len = 0` JS computes
    `NaN > T = false` while the embedding gives `0 > 0 = false`.
  * External services (speech synthesis, the interrupt flag read by the
    `checkInterrupt` closure) are oracles passed in as functions; interrupt
    checkpoints are numbered in call order.
  * Logging statements and the log-only `frameCount` field are omitted; they
    have no observable effect on the modelled state.
-/

namespace SoulmateAgent

/-! ### Tuning constants (VoiceProcessor constructor, lines 665-671, and the
VAD configuration of runAgent, lines 1277-1279) -/

/-- `this.SILENCE_THRESHOLD = 800` (line 665): turn-detection RMS cutoff. -/
def SILENCE_THRESHOLD : Int := 800

/-- `this.SILENCE_DURATION = 800` (line 666): sustained-silence duration in ms. -/
def SILENCE_DURATION : Nat := 800

/-- `this.MIN_AUDIO_LENGTH = 8000` (line 667): minimum sample floor for a turn. -/
def MIN_AUDIO_LENGTH : Nat := 8000

/-- `this.DEDUP_WINDOW = 3000` (line 670): deduplication window in ms. -/
def DEDUP_WINDOW : Nat := 3000

/-- `const INTERRUPT_THRESHOLD = 50` (line 1277): interrupt-profile RMS cutoff. -/
def INTERRUPT_THRESHOLD : Int := 50

/-- `const MIN_INTERRUPT_DURATION_MS = 50` (line 1278). -/
def MIN_INTERRUPT_DURATION_MS : Nat := 50

/-- `const FRAMES_FOR_INTERRUPT = 1` (line 1279). -/
def FRAMES_FOR_INTERRUPT : Nat := 1

/-- `const maxSamples = 48000 * 5` (line 679): cap of the interrupt capture
buffer, about 5 seconds at 48 kHz. -/
def MAX_INTERRUPT_SAMPLES : Nat := 48000 * 5

/-- `const FRAME_SIZE = 120` (line 1172): sub-frame size (5 ms at 24 kHz) used
by the chunked playback loop. -/
def PLAYBACK_FRAME_SIZE : Nat := 120

/-! ### VAD loudness (processFrame lines 711-717 and the speaking-path frame
loop lines 1319-1324 compute `rms = Math.sqrt(sum of squares / length)`). -/

/-- Sum of squared samples: `for (...) sum += samples[i] * samples[i]`
(lines 712-715). -/
def sumSquares (samples : List Int) : Int :=
  samples.foldl (fun acc s => acc + s * s) 0

/-- The comparison `Math.sqrt(sum / len) > threshold`, embedded without the
square root as `sum > threshold^2 * len` (equivalent for nonempty frames;
`false` on empty frames in both ways of reading the JS). -/
def isLoud (samples : List Int) (threshold : Int) : Bool :=
  decide (threshold ^ 2 * (samples.length : Int) < sumSquares samples)

/-- Squared VAD level: the code's level is `Math.sqrt(sum / samples.length)`
(line 716), so its square is `sumSquares / length` as a rational. Working with
the square avoids irrational values; the level itself is nonnegative, so two
levels are equal iff their squares are. -/
def vadLevelSq (frame : List Int) : ℚ :=
  (sumSquares frame : ℚ) / (frame.length : ℚ)

/-- Modelled from the spec: the claimed level "normalized to the numeric range
of a sample (scaled into [0,1] by dividing by the maximum sample magnitude)",
i.e. `sqrt(sum / length) / 32768`, squared. This definition follows the spec
words, not the source, and exists to be compared with `vadLevelSq`. -/
def specNormalizedLevelSq (frame : List Int) : ℚ :=
  (sumSquares frame : ℚ) / ((frame.length : ℚ) * 32768 ^ 2)

/-! ### Session state

One flat record collecting the per-user `VoiceProcessor` fields
(lines 657-672) and the per-turn closure variables of `runAgent`
(lines 1268-1274). `isProcessing` is threaded as an explicit argument where
the code reads it. -/

structure AgentState where
  /-- `this.audioBuffer` (line 660): the RecordingBuffer. -/
  audioBuffer : List Int
  /-- `this.interruptBuffer` (line 661): the InterruptCaptureBuffer. -/
  interruptBuffer : List Int
  /-- `this.isRecording` (line 662). -/
  isRecording : Bool
  /-- `this.silenceStart` (line 663), a `Date.now()` value or null. -/
  silenceStart : Option Nat
  /-- `this.speechStart` (line 664). -/
  speechStart : Option Nat
  /-- `this.lastProcessedText` (line 668). -/
  lastProcessedText : Option (List Char)
  /-- `this.lastProcessedTime` (line 669). -/
  lastProcessedTime : Nat
  /-- `isSpeaking` (line 1269). -/
  isSpeaking : Bool
  /-- `shouldInterrupt` (line 1270). -/
  shouldInterrupt : Bool
  /-- `consecutiveSpeechFrames` (line 1272). -/
  consecutiveSpeechFrames : Nat
  /-- `interruptStartTime` (line 1271). -/
  interruptStartTime : Option Nat
  /-- Whether `currentSpeakingUserId` (line 1273) is non-null. -/
  currentSpeakingUser : Bool
  /-- `currentResponse` (line 1274). -/
  currentResponse : Option (List Char)
  /-- Whether `activeStreams` (line 432) holds an AbortController for this
  user. -/
  activeStream : Bool
  /-- The `interruptedResponses` entry for this user (line 433): the
  InterruptedContext. -/
  interruptedResponse : Option (List Char)
deriving DecidableEq

/-- The state of a freshly created session: `VoiceProcessor` constructor
(lines 658-671) plus the initial values of the runAgent closure variables
(lines 1268-1274) and the empty `activeStreams` / `interruptedResponses`
maps. -/
def initialState : AgentState where
  audioBuffer := []
  interruptBuffer := []
  isRecording := false
  silenceStart := none
  speechStart := none
  lastProcessedText := none
  lastProcessedTime := 0
  isSpeaking := false
  shouldInterrupt := false
  consecutiveSpeechFrames := 0
  interruptStartTime := none
  currentSpeakingUser := false
  currentResponse := none
  activeStream := false
  interruptedResponse := none

/-- `VoiceProcessor.reset` (lines 776-781). -/
def resetVoice (st : AgentState) : AgentState :=
  { st with audioBuffer := [], isRecording := false,
            silenceStart := none, speechStart := none }

/-- `bufferInterruptAudio` (lines 675-683): append the frame, then keep only
the final `MAX_INTERRUPT_SAMPLES` samples (`slice(-maxSamples)`) when the cap
is exceeded. -/
def bufferInterruptAudio (buf frame : List Int) : List Int :=
  let b := buf ++ frame
  if MAX_INTERRUPT_SAMPLES < b.length then b.drop (b.length - MAX_INTERRUPT_SAMPLES) else b

/-- `VoiceProcessor.processFrame` (lines 696-756). Returns the new state and
`some buffer` when a complete utterance is released to transcription. -/
def processFrame (st : AgentState) (frame : List Int) (now : Nat)
    (isProcessing : Bool) : AgentState × Option (List Int) :=
  if isProcessing then
    (resetVoice st, none)
  else if isLoud frame SILENCE_THRESHOLD then
    let st1 := if st.isRecording then st else { st with speechStart := some now }
    ({ st1 with isRecording := true, silenceStart := none,
                audioBuffer := st1.audioBuffer ++ frame }, none)
  else if st.isRecording then
    let st1 := { st with audioBuffer := st.audioBuffer ++ frame }
    match st.silenceStart with
    | none => ({ st1 with silenceStart := some now }, none)
    | some t0 =>
      if SILENCE_DURATION < now - t0 then
        if MIN_AUDIO_LENGTH < st1.audioBuffer.length then
          (resetVoice st1, some st1.audioBuffer)
        else
          (resetVoice st1, none)
      else
        (st1, none)
  else
    (st, none)

/-! ### Deduplication -/

/-- Whitespace trim on a character list (the JS `String.prototype.trim`). -/
def trimChars (cs : List Char) : List Char :=
  ((cs.dropWhile Char.isWhitespace).reverse.dropWhile Char.isWhitespace).reverse

/-- The normalization of `isDuplicate` (line 760):
`text.toLowerCase().trim()`. -/
def normalizeText (t : List Char) : List Char :=
  trimChars (t.map Char.toLower)

/-- `VoiceProcessor.isDuplicate` (lines 758-774). In the duplicate branch the
stored fingerprint and time are left untouched; otherwise they are updated. -/
def isDuplicate (st : AgentState) (text : List Char) (now : Nat) :
    Bool × AgentState :=
  let n := normalizeText text
  if st.lastProcessedText = some n ∧ now - st.lastProcessedTime < DEDUP_WINDOW then
    (true, st)
  else
    (false, { st with lastProcessedText := some n, lastProcessedTime := now })

/-! ### Barge-in primitives -/

/-- `interruptAI` (lines 439-453): abort and drop the active TTS stream if one
exists, and in that case record `currentResponse` (when it is a truthy,
i.e. non-null non-empty, string) into `interruptedResponses`. Returns the
function's boolean result together with the new state. -/
def interruptAI (st : AgentState) (current : Option (List Char)) :
    Bool × AgentState :=
  if st.activeStream then
    let st1 := { st with activeStream := false }
    let st2 := match current with
               | some t => if t.isEmpty then st1 else { st1 with interruptedResponse := some t }
               | none => st1
    (true, st2)
  else
    (false, st)

/-- `getInterruptedContext` (lines 458-465): read and clear the stored
interrupted response. -/
def getInterruptedContext (st : AgentState) : Option (List Char) × AgentState :=
  match st.interruptedResponse with
  | some r => (some r, { st with interruptedResponse := none })
  | none => (none, st)

/-- One incoming audio frame handled while `isSpeaking` is true: the interrupt
detection branch of the frame loop of `runAgent` (lines 1317-1366). The frame
is always appended to the interrupt capture buffer; a loud frame bumps the
consecutive-speech counter and, when `FRAMES_FOR_INTERRUPT` frames or
`MIN_INTERRUPT_DURATION_MS` of speech are reached, confirms the interrupt:
`shouldInterrupt` is set and `interruptAI` is invoked for the current
speaking user. A quiet frame resets the counters. -/
def speakingFrameStep (st : AgentState) (frame : List Int) (now : Nat) :
    AgentState :=
  let st0 := { st with interruptBuffer := bufferInterruptAudio st.interruptBuffer frame }
  if isLoud frame INTERRUPT_THRESHOLD then
    let frames := st0.consecutiveSpeechFrames + 1
    let startTime := st0.interruptStartTime.getD now
    let speechDuration := now - startTime
    if FRAMES_FOR_INTERRUPT ≤ frames ∨ MIN_INTERRUPT_DURATION_MS ≤ speechDuration then
      let st1 := { st0 with shouldInterrupt := true }
      let st2 := if st1.currentSpeakingUser then (interruptAI st1 st1.currentResponse).2 else st1
      { st2 with consecutiveSpeechFrames := 0, interruptStartTime := none }
    else
      { st0 with consecutiveSpeechFrames := frames, interruptStartTime := some startTime }
  else
    { st0 with consecutiveSpeechFrames := 0, interruptStartTime := none }

/-! ### Sentence splitting (splitIntoSentences, lines 1013-1018)

The source runs `text.match(/[^।!?।\n]+[।!?।\n]?/g) || [text]`, then trims and
drops empty strings. A regex match is a maximal run of non-terminator
characters followed by at most one terminator; global matching skips the
characters between matches (runs of terminators). When there is no match at
all (the text consists solely of terminator characters, or is empty) the
`|| [text]` fallback yields the whole text as the only raw chunk. Note the
character class is `।!?।\n` (with the Devanagari danda listed twice): the
Latin full stop `.` is NOT in it. -/

/-- Whether a character is in the regex terminator class `।!?।\n`. -/
def isSentenceEnd (c : Char) : Bool :=
  c = '।' || c = '!' || c = '?' || c = '\n'

/-- All matches of `[^।!?।\n]+[^়]?`-style scanning: `acc` holds the current
run of non-terminator characters in reverse. Produces exactly the list that
`text.match(/[^।!?।\n]+[।!?।\n]?/g)` produces (empty when the JS value is
null). -/
def splitMatchesAux (acc : List Char) : List Char → List (List Char)
  | [] => if acc.isEmpty then [] else [acc.reverse]
  | c :: rest =>
    if isSentenceEnd c then
      if acc.isEmpty then splitMatchesAux [] rest
      else (acc.reverse ++ [c]) :: splitMatchesAux [] rest
    else splitMatchesAux (c :: acc) rest

/-- `splitIntoSentences` (lines 1013-1018). -/
def splitIntoSentences (text : List Char) : List (List Char) :=
  let ms := splitMatchesAux [] text
  let raw := if ms.isEmpty then [text] else ms
  (raw.map trimChars).filter (fun s => !s.isEmpty)

/-! ### The chunked synthesis/playback pipeline
(`synthesizeAndPlayChunked`, lines 1167-1230)

Outbound sink activity is recorded as a trace of `PlayEvent`s. The
speech-synthesis provider is an oracle `synth : Nat → Option (List Int)`
giving the samples returned for the chunk at each loop index (`none` models
both a provider failure and an aborted call, each of which makes
`synthesizeSpeech` return null, lines 1134-1160). The time-varying
`checkInterrupt()` closure (it reads the mutable `shouldInterrupt`) is an
oracle `ck : Nat → Bool` indexed by the number of checkpoint reads made so
far. -/

/-- One event on the outbound audio sink. `audioFrame f` is
`audioSource.captureFrame` of sub-frame `f` (line 1222); `silenceFrame` is one
`captureFrame(new Int16Array(480))` pushed by the `clearAudio` callback
(lines 1419-1426). -/
inductive PlayEvent where
  | audioFrame (samples : List Int)
  | silenceFrame
deriving DecidableEq

/-- Fuel-driven splitting of a chunk's samples into `PLAYBACK_FRAME_SIZE`
sub-frames (the inner loop stride of lines 1206-1226); fuel `audio.length`
always suffices since every step consumes at least one sample. -/
def subFramesAux : Nat → List Int → List (List Int)
  | 0, _ => []
  | _ + 1, [] => []
  | fuel + 1, a :: rest =>
    ((a :: rest).take PLAYBACK_FRAME_SIZE) ::
      subFramesAux fuel ((a :: rest).drop PLAYBACK_FRAME_SIZE)

/-- The sub-frames emitted for one synthesized chunk. -/
def subFrames (audio : List Int) : List (List Int) :=
  subFramesAux audio.length audio

/-- The playback loop for one chunk (lines 1206-1226): before every sub-frame
the interrupt checkpoint is read; returns the emitted events, the next
checkpoint index, and whether the loop was interrupted. -/
def playFrames (ck : Nat → Bool) : List (List Int) → Nat →
    List PlayEvent × Nat × Bool
  | [], k => ([], k, false)
  | f :: rest, k =>
    if ck k then ([], k + 1, true)
    else
      let r := playFrames ck rest (k + 1)
      (PlayEvent.audioFrame f :: r.1, r.2)

/-- The common cancellation exit of the pipeline (lines 1179-1185, 1193-1198
and 1208-1213): `interruptAI(userId, text)` followed by the `clearAudio`
callback, which pushes 10 silence frames (lines 1419-1426). `runAgent` always
passes a non-null `userId` and a non-null `clearAudio` (lines 1413-1428). -/
def cancelExit (st : AgentState) (text : List Char) :
    AgentState × List PlayEvent :=
  ((interruptAI st (some text)).2, List.replicate 10 PlayEvent.silenceFrame)

/-- The chunk loop of `synthesizeAndPlayChunked` (lines 1174-1227). `i` is the
loop index (selects the synthesis oracle entry), `k` the next checkpoint
index. A `synthesizeSpeech(sentence, ..., userId)` call registers an
AbortController in `activeStreams` and removes it again in its `finally`
block (lines 1085-1091 and 1156-1159), so after the call returns
`activeStream` is false; the call's outcome is `synth i`. -/
def chunkLoop (text : List Char) (synth : Nat → Option (List Int))
    (ck : Nat → Bool) :
    List (List Char) → AgentState → Nat → Nat →
    Bool × List PlayEvent × AgentState
  | [], st, _, _ => (true, [], st)
  | s :: rest, st, i, k =>
    if s.length < 2 then
      chunkLoop text synth ck rest st (i + 1) k
    else if ck k then
      let r := cancelExit st text
      (false, r.2, r.1)
    else
      let audio := synth i
      let st1 := { st with activeStream := false }
      if ck (k + 1) then
        let r := cancelExit st1 text
        (false, r.2, r.1)
      else
        match audio with
        | none => chunkLoop text synth ck rest st1 (i + 1) (k + 2)
        | some a =>
          let p := playFrames ck (subFrames a) (k + 2)
          if p.2.2 then
            let r := cancelExit st1 text
            (false, p.1 ++ r.2, r.1)
          else
            let rec2 := chunkLoop text synth ck rest st1 (i + 1) p.2.1
            (rec2.1, p.1 ++ rec2.2.1, rec2.2.2)

/-- `synthesizeAndPlayChunked` (lines 1167-1230): split the reply into
sentences and run the chunk loop. Returns (completed, outbound events, new
state). -/
def synthesizeAndPlayChunked (st : AgentState) (text : List Char)
    (synth : Nat → Option (List Int)) (ck : Nat → Bool) :
    Bool × List PlayEvent × AgentState :=
  chunkLoop text synth ck (splitIntoSentences text) st 0 0

/-! ### Turn completion and the whole turn -/

/-- The code after the `synthesizeAndPlayChunked` call in `runAgent`
(lines 1430-1448 plus the unconditional `voiceProcessor.reset()` at
line 1457): both branches clear the interrupt capture buffer; the interrupted
branch additionally resets the recorder immediately; then the speaking flags
are cleared and the recorder is reset. -/
def finishTurn (completed : Bool) (st : AgentState) : AgentState :=
  let st1 := { st with interruptBuffer := [] }
  let st2 := if completed then st1 else resetVoice st1
  resetVoice { st2 with isSpeaking := false, shouldInterrupt := false,
                        currentSpeakingUser := false, currentResponse := none }

/-- How a released utterance was handled by the turn body. -/
inductive TurnOutcome where
  /-- `!transcript || transcript.trim().length === 0` (lines 1381-1385). -/
  | emptySkip
  /-- `voiceProcessor.isDuplicate(transcript)` (lines 1388-1391). -/
  | duplicateSkip
  /-- The turn proceeded to generation, synthesis and playback. -/
  | spoke
deriving DecidableEq

/-- Result of one turn body. -/
structure TurnResult where
  state : AgentState
  outcome : TurnOutcome
  completed : Bool
  events : List PlayEvent
deriving DecidableEq

/-- The transition into Speaking just before the pipeline starts
(lines 1406-1411): set the speaking flags, remember the reply being said and
clear the interrupt-detection counters. -/
def startSpeaking (st : AgentState) (response : List Char) : AgentState :=
  { st with isSpeaking := true, currentSpeakingUser := true,
            currentResponse := some response, shouldInterrupt := false,
            consecutiveSpeechFrames := 0, interruptStartTime := none }

/-- The turn body of `runAgent` (lines 1378-1458) for one released audio
buffer: transcription already performed (its result, null on failure, is the
`transcript` argument), reply generation abstracted by the `response`
argument. Generation consumes the InterruptedContext
(`getInterruptedContext`, called at line 847 inside `getAIResponseWithRAG`);
then the speaking flags are set (lines 1406-1411), the chunked pipeline runs,
and the turn finishes through `finishTurn`. -/
def runTurn (st : AgentState) (transcript : Option (List Char)) (now : Nat)
    (response : List Char) (synth : Nat → Option (List Int))
    (ck : Nat → Bool) : TurnResult :=
  match transcript with
  | none => ⟨st, TurnOutcome.emptySkip, true, []⟩
  | some t =>
    if (trimChars t).isEmpty then ⟨st, TurnOutcome.emptySkip, true, []⟩
    else
      let d := isDuplicate st t now
      if d.1 then ⟨d.2, TurnOutcome.duplicateSkip, true, []⟩
      else
        let g := getInterruptedContext d.2
        let p := synthesizeAndPlayChunked (startSpeaking g.2 response)
          response synth ck
        ⟨finishTurn p.1 p.2.2, TurnOutcome.spoke, p.1, p.2.1⟩

/-! ### Speech-synthesis provider selection (`synthesizeSpeech`,
lines 1069-1161, and `synthesizeSpeechGoogle`, lines 1025-1063)

The provider decision depends on the module-global `useGoogleTTS` flag
(line 400) and on the outcome of the ElevenLabs HTTP call, abstracted as an
`ElevenOutcome`. The Google fallback always synthesizes with
`GOOGLE_TTS_VOICES['en']` (line 1028), whatever the user's language. -/

/-- Outcome of the ElevenLabs HTTP request made by `synthesizeSpeech`. -/
inductive ElevenOutcome where
  /-- The request succeeded with PCM samples. -/
  | ok (samples : List Int)
  /-- The request was aborted by the AbortController
  (`AbortError`/`CanceledError`, line 1136). -/
  | aborted
  /-- The request failed with an HTTP status code (line 1142). -/
  | httpFailure (status : Nat)
  /-- Any other failure (network error, timeout). -/
  | networkFailure
deriving DecidableEq

/-- A Google Cloud TTS voice entry of `GOOGLE_TTS_VOICES` (lines 403-409);
the `ssmlGender` field is constant and omitted. -/
structure GoogleVoice where
  languageCode : String
  voiceName : String
deriving DecidableEq

/-- The `GOOGLE_TTS_VOICES` map (lines 403-409). -/
def GOOGLE_TTS_VOICES : List (String × GoogleVoice) :=
  [("en", ⟨"en-US", "en-US-Neural2-F"⟩),
   ("hi", ⟨"hi-IN", "hi-IN-Neural2-A"⟩),
   ("es", ⟨"es-ES", "es-ES-Neural2-A"⟩),
   ("fr", ⟨"fr-FR", "fr-FR-Neural2-A"⟩),
   ("de", ⟨"de-DE", "de-DE-Neural2-A"⟩)]

/-- The voice `synthesizeSpeechGoogle` always uses:
`GOOGLE_TTS_VOICES['en']` (line 1028), independent of the user's language. -/
def googleVoiceConfig : GoogleVoice :=
  ((GOOGLE_TTS_VOICES.lookup ("en")).getD ⟨"", ""⟩)

/-- What a `synthesizeSpeech` call produced. -/
inductive TTSResult where
  /-- ElevenLabs audio synthesized with the caller's `voiceId`. -/
  | eleven (voiceId : String) (samples : List Int)
  /-- The call was routed to `synthesizeSpeechGoogle` with the given voice. -/
  | google (voice : GoogleVoice)
  /-- The call returned null because it was aborted (line 1138). -/
  | cancelled
deriving DecidableEq

/-- Provider routing of `synthesizeSpeech` (lines 1069-1161): with the
`useGoogleTTS` flag set the call short-circuits to Google (lines 1073-1076);
otherwise the ElevenLabs outcome decides: success returns the audio, an abort
returns null, a 401/429 failure sets the flag and falls back to Google
(lines 1141-1149), and any other failure falls back to Google without setting
the flag (lines 1151-1155). Returns the result and the new flag value. -/
def synthesizeSpeech (useGoogleTTS : Bool) (language voiceId : String)
    (eleven : ElevenOutcome) : TTSResult × Bool :=
  if useGoogleTTS then
    (TTSResult.google googleVoiceConfig, useGoogleTTS)
  else
    match eleven with
    | ElevenOutcome.ok samples => (TTSResult.eleven voiceId samples, useGoogleTTS)
    | ElevenOutcome.aborted => (TTSResult.cancelled, useGoogleTTS)
    | ElevenOutcome.httpFailure status =>
      if status = 401 ∨ status = 429 then (TTSResult.google googleVoiceConfig, true)
      else (TTSResult.google googleVoiceConfig, useGoogleTTS)
    | ElevenOutcome.networkFailure => (TTSResult.google googleVoiceConfig, useGoogleTTS)

/-- The `useGoogleTTS` flag after a sequence of `synthesizeSpeech` calls,
each with its own language, voiceId and ElevenLabs outcome. The code never
assigns `useGoogleTTS = false` after startup (its only assignments are
line 400 and line 1145), so the fold is the complete evolution of the flag. -/
def runSynthSequence (flag : Bool)
    (calls : List (String × String × ElevenOutcome)) : Bool :=
  calls.foldl (fun f c => (synthesizeSpeech f c.1 c.2.1 c.2.2).2) flag

/-- The language directive that `getAIResponseWithRAG` adds to the prompt. -/
inductive LangDirective where
  /-- `languageInstruction` stays the empty string. -/
  | noInstruction
  /-- The directive "You MUST respond in English only" (line 902). -/
  | englishOnly
  /-- The directive "You MUST respond in <languageName>" (line 905). -/
  | respondIn (languageName : String)
deriving DecidableEq

/-- The `languageInstruction` computation of `getAIResponseWithRAG`
(lines 897-906): under the Google fallback a non-English user is told to
respond in English only and an English user gets no directive; without the
fallback a non-English user is told to respond in their language. -/
def languageInstruction (useGoogleTTS : Bool) (language languageName : String) :
    LangDirective :=
  if useGoogleTTS then
    if language ≠ "en" then LangDirective.englishOnly else LangDirective.noInstruction
  else if language ≠ "en" then LangDirective.respondIn languageName
  else LangDirective.noInstruction

/-! ### Concrete session states used by counterexamples and witnesses -/

/-- A session mid-Speaking during the playback phase: the synthesis HTTP call
has already returned (so `activeStreams` holds no controller), a reply is
being played back, and 3 samples of interruption audio have been captured. -/
def speakingPlaybackState : AgentState :=
  { initialState with isSpeaking := true, currentSpeakingUser := true,
                      currentResponse := some ['O', 'k'],
                      interruptBuffer := [1, 2, 3] }

/-- A Recording session whose buffer will be exactly at the
`MIN_AUDIO_LENGTH` floor once one more 10-sample silent frame arrives, with
silence having started at time 0. -/
def atFloorState : AgentState :=
  { initialState with isRecording := true, silenceStart := some 0,
                      speechStart := some 0,
                      audioBuffer := List.replicate 7990 0 }

/-! ## Helper lemmas -/

theorem foldl_squares_replicate_zero (n : Nat) (acc : Int) :
    (List.replicate n (0 : Int)).foldl (fun a s => a + s * s) acc = acc := by
  induction n generalizing acc with
  | zero => rfl
  | succ n ih => simpa [List.replicate_succ] using ih acc

theorem sumSquares_replicate_zero (n : Nat) :
    sumSquares (List.replicate n 0) = 0 :=
  foldl_squares_replicate_zero n 0

theorem isLoud_replicate_zero (n : Nat) (T : Int) (hT : 0 ≤ T) :
    isLoud (List.replicate n 0) T = false := by
  simp only [isLoud, sumSquares_replicate_zero, decide_eq_false_iff_not, not_lt]
  positivity

/-- `processFrame` in the silence-confirmed situation: the recorder is active,
the incoming frame is below the turn threshold, and the configured silence
duration has elapsed. The buffer (with the silent frame appended) is released
iff it is strictly longer than the floor, and the recorder is reset either
way. -/
theorem processFrame_silence_confirmed (st : AgentState) (frame : List Int)
    (now t0 : Nat) (hrec : st.isRecording = true)
    (hquiet : isLoud frame SILENCE_THRESHOLD = false)
    (hstart : st.silenceStart = some t0)
    (hdur : SILENCE_DURATION < now - t0) :
    processFrame st frame now false =
      (resetVoice { st with audioBuffer := st.audioBuffer ++ frame },
       if MIN_AUDIO_LENGTH < (st.audioBuffer ++ frame).length then
         some (st.audioBuffer ++ frame)
       else none) := by
  simp only [processFrame, hquiet, hrec, hstart, if_neg (Bool.false_ne_true),
             Bool.false_eq_true, if_false, if_true, if_pos hdur]
  split <;> rfl

theorem getInterruptedContext_clears (st : AgentState) :
    (getInterruptedContext st).2.interruptedResponse = none := by
  rcases h : st.interruptedResponse with _ | r <;> simp [getInterruptedContext, h]

theorem getInterruptedContext_dedup (st : AgentState) :
    (getInterruptedContext st).2.lastProcessedText = st.lastProcessedText ∧
    (getInterruptedContext st).2.lastProcessedTime = st.lastProcessedTime := by
  rcases h : st.interruptedResponse with _ | r <;> simp [getInterruptedContext, h]

/-! Lemmas about the interrupt capture buffer (claim C9). -/

theorem bufferInterruptAudio_length (buf f : List Int)
    (h : buf.length ≤ MAX_INTERRUPT_SAMPLES) :
    (bufferInterruptAudio buf f).length =
      min (buf.length + f.length) MAX_INTERRUPT_SAMPLES := by
  simp only [bufferInterruptAudio]
  split <;> rename_i hsplit <;>
    simp only [List.length_drop, List.length_append] at hsplit ⊢ <;> omega

theorem bufferInterruptAudio_suffix (buf f : List Int) :
    bufferInterruptAudio buf f <:+ buf ++ f := by
  simp only [bufferInterruptAudio]
  split
  · exact List.drop_suffix _ _
  · exact List.suffix_refl _

theorem suffix_append_right {α : Type} {a b : List α} (c : List α)
    (h : a <:+ b) : a ++ c <:+ b ++ c := by
  obtain ⟨t, ht⟩ := h
  exact ⟨t, by rw [← List.append_assoc, ht]⟩

theorem foldl_bufferInterruptAudio (frames : List (List Int)) :
    ∀ init : List Int, init.length ≤ MAX_INTERRUPT_SAMPLES →
      (frames.foldl bufferInterruptAudio init).length =
        min (init.length + frames.flatten.length) MAX_INTERRUPT_SAMPLES ∧
      frames.foldl bufferInterruptAudio init <:+ init ++ frames.flatten := by
  induction frames with
  | nil =>
    intro init h
    constructor
    · simp only [List.foldl_nil, List.flatten_nil, List.length_nil]
      omega
    · simp only [List.foldl_nil, List.flatten_nil, List.append_nil]
      exact List.suffix_refl _
  | cons f rest ih =>
    intro init h
    have hlen := bufferInterruptAudio_length init f h
    have hb : (bufferInterruptAudio init f).length ≤ MAX_INTERRUPT_SAMPLES := by
      omega
    obtain ⟨ihlen, ihsuf⟩ := ih (bufferInterruptAudio init f) hb
    constructor
    · simp only [List.foldl_cons, List.flatten_cons, List.length_append, ihlen,
                 hlen]
      omega
    · simp only [List.foldl_cons, List.flatten_cons]
      have h1 : bufferInterruptAudio init f ++ rest.flatten <:+
          (init ++ f) ++ rest.flatten :=
        suffix_append_right _ (bufferInterruptAudio_suffix init f)
      rw [List.append_assoc] at h1
      exact ihsuf.trans h1

/-! Lemmas about sentence splitting (claim C4). -/

theorem splitMatchesAux_noTerm (l : List Char) :
    ∀ acc : List Char, (∀ c ∈ l, isSentenceEnd c = false) →
      splitMatchesAux acc l =
        if (acc.reverse ++ l).isEmpty then [] else [acc.reverse ++ l] := by
  induction l with
  | nil =>
    intro acc _
    simp [splitMatchesAux, List.isEmpty_iff]
  | cons c rest ih =>
    intro acc h
    have hc : isSentenceEnd c = false := h c (List.mem_cons_self c rest)
    have hrest : ∀ x ∈ rest, isSentenceEnd x = false :=
      fun x hx => h x (List.mem_cons_of_mem c hx)
    simp only [splitMatchesAux, hc, Bool.false_eq_true, if_false,
               ih (c :: acc) hrest]
    have : (c :: acc).reverse ++ rest = acc.reverse ++ c :: rest := by
      simp
    rw [this]

theorem splitMatchesAux_term (a : List Char) (t : Char) (b : List Char)
    (ht : isSentenceEnd t = true) :
    ∀ acc : List Char, (∀ c ∈ a, isSentenceEnd c = false) →
      acc.reverse ++ a ≠ [] →
      splitMatchesAux acc (a ++ t :: b) =
        (acc.reverse ++ a ++ [t]) :: splitMatchesAux [] b := by
  induction a with
  | nil =>
    intro acc _ hne
    simp only [List.append_nil] at hne
    simp only [List.nil_append, splitMatchesAux, ht, if_true]
    have hacc : acc.isEmpty = false := by
      rcases acc with _ | ⟨x, xs⟩
      · exact absurd rfl hne
      · rfl
    simp [hacc]
  | cons c a ih =>
    intro acc h hne
    have hc : isSentenceEnd c = false := h c (List.mem_cons_self c a)
    have ha : ∀ x ∈ a, isSentenceEnd x = false :=
      fun x hx => h x (List.mem_cons_of_mem c hx)
    have step : splitMatchesAux acc ((c :: a) ++ t :: b) =
        splitMatchesAux (c :: acc) (a ++ t :: b) := by
      simp [splitMatchesAux, hc]
    rw [step, ih (c :: acc) ha (by simp)]
    have : (c :: acc).reverse ++ a = acc.reverse ++ c :: a := by simp
    rw [this]

theorem dropWhile_ws_eq_self (l : List Char)
    (h : ∀ c ∈ l, c.isWhitespace = false) :
    l.dropWhile Char.isWhitespace = l := by
  cases l with
  | nil => rfl
  | cons c rest =>
    rw [List.dropWhile_cons]
    simp [h c (List.mem_cons_self c rest)]

theorem trimChars_eq_self (l : List Char)
    (h : ∀ c ∈ l, c.isWhitespace = false) :
    trimChars l = l := by
  unfold trimChars
  rw [dropWhile_ws_eq_self l h,
      dropWhile_ws_eq_self l.reverse (fun c hc => h c (List.mem_reverse.mp hc)),
      List.reverse_reverse]

/-- Trimming a non-whitespace, nonempty run with a line break appended drops
exactly the line break: the `trim()` of `splitIntoSentences` removes a
newline terminator from the end of its chunk. -/
theorem trimChars_append_newline (a : List Char)
    (ha : ∀ c ∈ a, c.isWhitespace = false) (hane : a ≠ []) :
    trimChars (a ++ ['\n']) = a := by
  unfold trimChars
  have h1 : (a ++ ['\n']).dropWhile Char.isWhitespace = a ++ ['\n'] := by
    rcases a with _ | ⟨x, xs⟩
    · exact absurd rfl hane
    · rw [List.cons_append, List.dropWhile_cons]
      simp [ha x (List.mem_cons_self x xs)]
  rw [h1, List.reverse_append]
  have h2 : (['\n'] : List Char).reverse ++ a.reverse = '\n' :: a.reverse := by
    simp
  rw [h2, List.dropWhile_cons]
  have h3 : ('\n' : Char).isWhitespace = true := by decide
  rw [h3]
  simp only [if_true]
  rw [dropWhile_ws_eq_self a.reverse
        (fun c hc => ha c (List.mem_reverse.mp hc)),
      List.reverse_reverse]

/-! Lemmas about the chunked playback pipeline (claims C2, C3, C7, C8). -/

theorem playFrames_noCancel (ck : Nat → Bool) (hck : ∀ n, ck n = false) :
    ∀ (frames : List (List Int)) (k : Nat),
      playFrames ck frames k =
        (frames.map PlayEvent.audioFrame, k + frames.length, false) := by
  intro frames
  induction frames with
  | nil => intro k; simp [playFrames]
  | cons f rest ih =>
    intro k
    simp only [playFrames, hck k, Bool.false_eq_true, if_false, ih (k + 1),
               List.map_cons, List.length_cons]
    have harith : k + 1 + rest.length = k + (rest.length + 1) := by omega
    rw [harith]

theorem cancelExit_events (st : AgentState) (text : List Char) :
    (cancelExit st text).2 = List.replicate 10 PlayEvent.silenceFrame := rfl

theorem cancelExit_state (st : AgentState) (text : List Char) :
    (st.activeStream = false →
      (cancelExit st text).1.interruptedResponse = st.interruptedResponse ∧
      (cancelExit st text).1.activeStream = false) ∧
    (cancelExit st text).1.lastProcessedText = st.lastProcessedText ∧
    (cancelExit st text).1.lastProcessedTime = st.lastProcessedTime := by
  rcases hact : st.activeStream with _ | _ <;>
    rcases htext : text.isEmpty with _ | _ <;>
      simp [cancelExit, interruptAI, hact, htext]

/-- Fields of the session state that the chunk loop can never change, plus
the two ways the interrupted context is preserved: always when the loop
reports completion, and always when no synthesis stream was registered on
entry (`interruptAI` stores text only when `activeStreams` holds a
controller, lines 440-449). Every `false` return goes through `cancelExit`,
so the emitted trace then ends with the 10-frame silence flush. -/
theorem chunkLoop_inv (text : List Char) (synth : Nat → Option (List Int))
    (ck : Nat → Bool) :
    ∀ (sentences : List (List Char)) (st : AgentState) (i k : Nat),
      ((chunkLoop text synth ck sentences st i k).1 = false →
        ∃ p, (chunkLoop text synth ck sentences st i k).2.1 =
          p ++ List.replicate 10 PlayEvent.silenceFrame) ∧
      (st.activeStream = false →
        (chunkLoop text synth ck sentences st i k).2.2.interruptedResponse =
            st.interruptedResponse ∧
        (chunkLoop text synth ck sentences st i k).2.2.activeStream = false) ∧
      ((chunkLoop text synth ck sentences st i k).1 = true →
        (chunkLoop text synth ck sentences st i k).2.2.interruptedResponse =
          st.interruptedResponse) ∧
      (chunkLoop text synth ck sentences st i k).2.2.lastProcessedText =
        st.lastProcessedText ∧
      (chunkLoop text synth ck sentences st i k).2.2.lastProcessedTime =
        st.lastProcessedTime := by
  intro sentences
  induction sentences with
  | nil =>
    intro st i k
    refine ⟨fun h => by simp [chunkLoop] at h, fun h => ⟨rfl, h⟩, fun _ => rfl,
            rfl, rfl⟩
  | cons s rest ih =>
    intro st i k
    show _ ∧ _
    rw [chunkLoop]
    by_cases hshort : s.length < 2
    · simp only [if_pos hshort]
      exact ih st (i + 1) k
    · simp only [if_neg hshort]
      by_cases hk : ck k = true
      · simp only [hk, if_true]
        obtain ⟨hc2, hc4, hc5⟩ := cancelExit_state st text
        exact ⟨fun _ => ⟨[], rfl⟩,
               fun h0 => hc2 h0, fun habs => absurd habs (by simp), hc4, hc5⟩
      · simp only [Bool.not_eq_true] at hk
        simp only [hk, Bool.false_eq_true, if_false]
        by_cases hk2 : ck (k + 1) = true
        · simp only [hk2, if_true]
          obtain ⟨hc2, hc4, hc5⟩ :=
            cancelExit_state { st with activeStream := false } text
          refine ⟨fun _ => ⟨[], rfl⟩,
                  fun _ => hc2 rfl, fun habs => absurd habs (by simp),
                  hc4, hc5⟩
        · simp only [Bool.not_eq_true] at hk2
          simp only [hk2, Bool.false_eq_true, if_false]
          rcases hsyn : synth i with _ | a
          · obtain ⟨h1, h2, h3, h4, h5⟩ :=
              ih { st with activeStream := false } (i + 1) (k + 2)
            obtain ⟨h2a, h2b⟩ := h2 rfl
            exact ⟨h1, fun _ => ⟨h2a, h2b⟩, fun _ => h2a, h4, h5⟩
          · by_cases hp : (playFrames ck (subFrames a) (k + 2)).2.2 = true
            · simp only [hp, if_true]
              obtain ⟨hc2, hc4, hc5⟩ :=
                cancelExit_state { st with activeStream := false } text
              refine ⟨fun _ => ⟨(playFrames ck (subFrames a) (k + 2)).1, rfl⟩,
                      fun _ => hc2 rfl, fun habs => absurd habs (by simp),
                      hc4, hc5⟩
            · simp only [Bool.not_eq_true] at hp
              simp only [hp, Bool.false_eq_true, if_false]
              obtain ⟨h1, h2, h3, h4, h5⟩ :=
                ih { st with activeStream := false } (i + 1)
                  (playFrames ck (subFrames a) (k + 2)).2.1
              obtain ⟨h2a, h2b⟩ := h2 rfl
              refine ⟨fun hf => ?_, fun _ => ⟨h2a, h2b⟩, fun _ => h2a, h4, h5⟩
              obtain ⟨q, hq⟩ := h1 hf
              exact ⟨(playFrames ck (subFrames a) (k + 2)).1 ++ q,
                     by rw [hq, List.append_assoc]⟩

/-- Effect of `interruptAI` on the session: it never touches any field other
than `activeStream` and `interruptedResponse`; with no active stream it is a
no-op, and with an active stream it aborts it and stores a truthy
`currentResponse`. -/
theorem interruptAI_effect (st : AgentState) (current : Option (List Char)) :
    (interruptAI st current).2.shouldInterrupt = st.shouldInterrupt ∧
    (interruptAI st current).2.interruptBuffer = st.interruptBuffer ∧
    (st.activeStream = false →
      (interruptAI st current).2.interruptedResponse =
        st.interruptedResponse) ∧
    (∀ t2, st.activeStream = true → current = some t2 → t2.isEmpty = false →
      (interruptAI st current).2.interruptedResponse = some t2) := by
  rcases hact : st.activeStream with _ | _
  · refine ⟨?_, ?_, fun _ => ?_, fun t2 habs _ _ => absurd habs (by simp [hact])⟩
      <;> simp [interruptAI, hact]
  · refine ⟨?_, ?_, fun habs => absurd habs (by simp [hact]), fun t2 _ hcur he => ?_⟩
    · rcases hcur : current with _ | t2 <;>
        simp only [interruptAI, hact, if_true] <;>
          first
            | rfl
            | (rcases he : t2.isEmpty with _ | _ <;> simp [he])
    · rcases hcur : current with _ | t2 <;>
        simp only [interruptAI, hact, if_true] <;>
          first
            | rfl
            | (rcases he : t2.isEmpty with _ | _ <;> simp [he])
    · simp only [interruptAI, hact, if_true, hcur, he, Bool.false_eq_true,
                 if_false]

/-- `finishTurn` always ends with a cleared interrupt capture buffer, an empty
recording buffer, recording and speaking flags off, and leaves the
interrupted context and the deduplication fingerprint untouched. -/
theorem finishTurn_fields (c : Bool) (st : AgentState) :
    (finishTurn c st).interruptedResponse = st.interruptedResponse ∧
    (finishTurn c st).interruptBuffer = [] ∧
    (finishTurn c st).audioBuffer = [] ∧
    (finishTurn c st).isRecording = false ∧
    (finishTurn c st).isSpeaking = false ∧
    (finishTurn c st).lastProcessedText = st.lastProcessedText ∧
    (finishTurn c st).lastProcessedTime = st.lastProcessedTime := by
  cases c <;> simp [finishTurn, resetVoice]

theorem isDuplicate_false_state (st : AgentState) (t : List Char) (now : Nat)
    (h : (isDuplicate st t now).1 = false) :
    (isDuplicate st t now).2 =
      { st with lastProcessedText := some (normalizeText t),
                lastProcessedTime := now } := by
  by_cases hc : st.lastProcessedText = some (normalizeText t) ∧
      now - st.lastProcessedTime < DEDUP_WINDOW
  · have htrue : (isDuplicate st t now).1 = true := by
      simp only [isDuplicate]
      rw [if_pos hc]
    rw [h] at htrue
    exact absurd htrue (by simp)
  · simp only [isDuplicate]
    rw [if_neg hc]

theorem runSynthSequence_stays_true :
    ∀ calls : List (String × String × ElevenOutcome),
      runSynthSequence true calls = true := by
  intro calls
  induction calls with
  | nil => rfl
  | cons c cs ih => simpa [runSynthSequence, synthesizeSpeech] using ih

/-! ## Claim theorems -/

/-- C4 counterexample: the claim says the pipeline splits at every
sentence-ending punctuation mark including the Latin full stop. On the text
"Hi. Bye." the code produces a single chunk: the regex class `।!?।\n` does not
contain the character full stop, so no split happens at it (the claimed
behaviour would give two chunks). -/
theorem C4_period_counterexample :
    splitIntoSentences ['H', 'i', '.', ' ', 'B', 'y', 'e', '.'] =
      [['H', 'i', '.', ' ', 'B', 'y', 'e', '.']] := by
  decide

/-- C4 (amended): `splitIntoSentences` splits the reply at the terminators
`!`, `?`, the Devanagari danda and line breaks, and does NOT split at the
Latin full stop; empty chunks are dropped, and the playback loop skips any
chunk shorter than 2 characters without synthesizing or emitting anything.
For any two nonempty runs `a`, `b` of ordinary characters (no terminator, no
whitespace) and any non-whitespace terminator `t`, the text `a ++ t :: b`
splits into exactly the two chunks `a ++ [t]` and `b`; a line break also
splits, `a ++ newline :: b` giving the two chunks `a` and `b` (the newline
itself is removed by the trim); whereas `a ++ full stop :: b` stays one
chunk. -/
theorem C4_sentence_split_amended (a b : List Char) (t : Char)
    (ha : ∀ c ∈ a, isSentenceEnd c = false ∧ c.isWhitespace = false)
    (hb : ∀ c ∈ b, isSentenceEnd c = false ∧ c.isWhitespace = false)
    (hane : a ≠ []) (hbne : b ≠ [])
    (ht : isSentenceEnd t = true) (htw : t.isWhitespace = false) :
    splitIntoSentences (a ++ t :: b) = [a ++ [t], b] ∧
    splitIntoSentences (a ++ '\n' :: b) = [a, b] ∧
    splitIntoSentences (a ++ '.' :: b) = [a ++ '.' :: b] ∧
    (∀ (text2 s : List Char) (rest : List (List Char)) (st : AgentState)
       (synth : Nat → Option (List Int)) (ck : Nat → Bool) (i k : Nat),
       s.length < 2 →
       chunkLoop text2 synth ck (s :: rest) st i k =
         chunkLoop text2 synth ck rest st (i + 1) k) := by
  have hdot : isSentenceEnd '.' = false := by decide
  have hdotw : ('.' : Char).isWhitespace = false := by decide
  refine ⟨?_, ?_, ?_, ?_⟩
  · have hms : splitMatchesAux [] (a ++ t :: b) =
        (([] : List Char).reverse ++ a ++ [t]) :: splitMatchesAux [] b :=
      splitMatchesAux_term a t b ht [] (fun c hc => (ha c hc).1)
        (by simpa using hane)
    have hmb : splitMatchesAux [] b =
        if (([] : List Char).reverse ++ b).isEmpty then [] else
          [([] : List Char).reverse ++ b] :=
      splitMatchesAux_noTerm b [] (fun c hc => (hb c hc).1)
    simp only [List.reverse_nil, List.nil_append] at hms hmb
    have hbe : b.isEmpty = false := by
      rcases b with _ | _
      · exact absurd rfl hbne
      · rfl
    rw [hbe] at hmb
    simp only [Bool.false_eq_true, if_false] at hmb
    have htrim1 : trimChars (a ++ [t]) = a ++ [t] := by
      refine trimChars_eq_self _ (fun c hc => ?_)
      rcases List.mem_append.mp hc with h1 | h1
      · exact (ha c h1).2
      · rw [List.mem_singleton.mp h1]; exact htw
    have htrim2 : trimChars b = b :=
      trimChars_eq_self _ (fun c hc => (hb c hc).2)
    unfold splitIntoSentences
    rw [hms, hmb]
    simp only [List.isEmpty_cons, Bool.false_eq_true, if_false, List.map_cons,
               List.map_nil, htrim1, htrim2, List.filter]
    have h1e : (a ++ [t]).isEmpty = false := by
      rcases a with _ | _ <;> rfl
    simp [h1e, hbe]
  · have hms : splitMatchesAux [] (a ++ '\n' :: b) =
        (([] : List Char).reverse ++ a ++ ['\n']) :: splitMatchesAux [] b :=
      splitMatchesAux_term a '\n' b (by decide) [] (fun c hc => (ha c hc).1)
        (by simpa using hane)
    have hmb : splitMatchesAux [] b =
        if (([] : List Char).reverse ++ b).isEmpty then [] else
          [([] : List Char).reverse ++ b] :=
      splitMatchesAux_noTerm b [] (fun c hc => (hb c hc).1)
    simp only [List.reverse_nil, List.nil_append] at hms hmb
    have hbe : b.isEmpty = false := by
      rcases b with _ | _
      · exact absurd rfl hbne
      · rfl
    rw [hbe] at hmb
    simp only [Bool.false_eq_true, if_false] at hmb
    have htrim1 : trimChars (a ++ ['\n']) = a :=
      trimChars_append_newline a (fun c hc => (ha c hc).2) hane
    have htrim2 : trimChars b = b :=
      trimChars_eq_self _ (fun c hc => (hb c hc).2)
    unfold splitIntoSentences
    rw [hms, hmb]
    simp only [List.isEmpty_cons, Bool.false_eq_true, if_false, List.map_cons,
               List.map_nil, htrim1, htrim2, List.filter]
    have h1e : a.isEmpty = false := by
      rcases a with _ | _
      · exact absurd rfl hane
      · rfl
    simp [h1e, hbe]
  · have hall : ∀ c ∈ a ++ '.' :: b, isSentenceEnd c = false := by
      intro c hc
      rcases List.mem_append.mp hc with h1 | h1
      · exact (ha c h1).1
      · rcases List.mem_cons.mp h1 with h2 | h2
        · rw [h2]; exact hdot
        · exact (hb c h2).1
    have hms := splitMatchesAux_noTerm (a ++ '.' :: b) [] hall
    simp only [List.reverse_nil, List.nil_append] at hms
    have hne : (a ++ '.' :: b).isEmpty = false := by
      rcases a with _ | _ <;> rfl
    rw [hne] at hms
    simp only [Bool.false_eq_true, if_false] at hms
    have htrim : trimChars (a ++ '.' :: b) = a ++ '.' :: b := by
      refine trimChars_eq_self _ (fun c hc => ?_)
      rcases List.mem_append.mp hc with h1 | h1
      · exact (ha c h1).2
      · rcases List.mem_cons.mp h1 with h2 | h2
        · rw [h2]; exact hdotw
        · exact (hb c h2).2
    unfold splitIntoSentences
    rw [hms]
    simp [htrim, hne]
  · intro text2 s rest st synth ck i k hs
    rw [chunkLoop, if_pos hs]

/-- C4 witness: instantiation of the amended split theorem on the concrete
texts "Hi!Bye", "Hi\nBye" and "Hi.Bye". -/
theorem C4_sentence_split_amended_witness :
    splitIntoSentences (['H', 'i'] ++ '!' :: ['B', 'y', 'e']) =
      [['H', 'i'] ++ ['!'], ['B', 'y', 'e']] ∧
    splitIntoSentences (['H', 'i'] ++ '\n' :: ['B', 'y', 'e']) =
      [['H', 'i'], ['B', 'y', 'e']] ∧
    splitIntoSentences (['H', 'i'] ++ '.' :: ['B', 'y', 'e']) =
      [['H', 'i'] ++ '.' :: ['B', 'y', 'e']] ∧
    (∀ (text2 s : List Char) (rest : List (List Char)) (st : AgentState)
       (synth : Nat → Option (List Int)) (ck : Nat → Bool) (i k : Nat),
       s.length < 2 →
       chunkLoop text2 synth ck (s :: rest) st i k =
         chunkLoop text2 synth ck rest st (i + 1) k) :=
  C4_sentence_split_amended ['H', 'i'] ['B', 'y', 'e'] '!' (by decide)
    (by decide) (by decide) (by decide) (by decide) (by decide)

/-- C5 counterexample: the claim says the VAD level is the RMS normalized
into [0,1] by dividing by the maximum sample magnitude. On the one-sample
frame [32767] the code's level squared is 32767^2 (the level is 32767, far
above 1), while the claimed normalized level squared would be
(32767/32768)^2; the two disagree, and the code's level is not in [0,1]. -/
theorem C5_normalization_counterexample :
    vadLevelSq [32767] ≠ specNormalizedLevelSq [32767] ∧
    1 < vadLevelSq [32767] := by
  constructor <;> norm_num [vadLevelSq, specNormalizedLevelSq, sumSquares,
    List.foldl]

/-- C5 (amended): the VAD level is the raw, unnormalized RMS of the signed
16-bit samples: its square equals the claimed normalized level squared
multiplied by 32768^2, i.e. the code's level is the normalized level scaled
by the maximum sample magnitude (the thresholds 800 and 50 are accordingly
expressed in raw sample units). -/
theorem C5_level_unnormalized (frame : List Int) :
    vadLevelSq frame = specNormalizedLevelSq frame * 32768 ^ 2 := by
  unfold vadLevelSq specNormalizedLevelSq
  rcases eq_or_ne ((frame.length : ℚ)) 0 with h | h
  · rw [h]; simp
  · field_simp
    ring

/-- C9: the interrupt capture buffer, fed any sequence of frames from its
initial empty state, never holds more than `MAX_INTERRUPT_SAMPLES` = 240000
samples (about 5 seconds at 48 kHz); its length is exactly the total number
of samples capped at that maximum, and its contents are a suffix of the
concatenation of all frames, so when the cap is exceeded the oldest samples
are discarded first and the newest retained. -/
theorem C9_interrupt_buffer_bound (frames : List (List Int)) :
    (frames.foldl bufferInterruptAudio []).length =
      min frames.flatten.length MAX_INTERRUPT_SAMPLES ∧
    (frames.foldl bufferInterruptAudio []).length ≤ MAX_INTERRUPT_SAMPLES ∧
    frames.foldl bufferInterruptAudio [] <:+ frames.flatten := by
  obtain ⟨h1, h2⟩ := foldl_bufferInterruptAudio frames []
    (by simp [MAX_INTERRUPT_SAMPLES])
  simp only [List.length_nil, Nat.zero_add, List.nil_append] at h1 h2
  exact ⟨h1, by omega, h2⟩

/-- C10 counterexample: the claim says that once the fallback flag is set,
reply generation is instructed to respond in English only for every user.
For a user whose configured language already is "en" the code adds no
language instruction at all (lines 901-903 only cover `language !== 'en'`),
so the claimed instruction is absent. -/
theorem C10_english_instruction_counterexample :
    languageInstruction true ("en") ("English") = LangDirective.noInstruction ∧
    languageInstruction true ("en") ("English") ≠ LangDirective.englishOnly := by
  constructor <;> decide

/-- C10 (amended): once any synthesis call fails with HTTP 401 or 429 the
module-global flag is set, and it is never cleared by any later sequence of
synthesis calls; while it is set, every synthesis request, for every user and
regardless of the configured language, is routed to the Google TTS fallback
with the English voice (languageCode "en-US"); and reply generation for every
user whose configured language is not English is explicitly instructed to
respond in English only (English-configured users receive no added
instruction). -/
theorem C10_google_fallback_amended (language voiceId languageName : String)
    (e : ElevenOutcome) (calls : List (String × String × ElevenOutcome))
    (h : language ≠ "en") :
    (synthesizeSpeech false language voiceId (ElevenOutcome.httpFailure 401)).2
        = true ∧
    (synthesizeSpeech false language voiceId (ElevenOutcome.httpFailure 429)).2
        = true ∧
    (synthesizeSpeech true language voiceId e).1 =
      TTSResult.google googleVoiceConfig ∧
    (synthesizeSpeech true language voiceId e).2 = true ∧
    googleVoiceConfig.languageCode = "en-US" ∧
    runSynthSequence true calls = true ∧
    languageInstruction true language languageName =
      LangDirective.englishOnly := by
  refine ⟨by simp [synthesizeSpeech], by simp [synthesizeSpeech], rfl, rfl,
          by decide, runSynthSequence_stays_true calls, ?_⟩
  simp [languageInstruction, h]

/-- C10 witness: instantiation of the amended fallback theorem for a Hindi
user, with one later ElevenLabs-failing call in the sequence. -/
theorem C10_google_fallback_amended_witness :
    ("hi" : String) ≠ "en" ∧
    ((synthesizeSpeech false ("hi") ("v1") (ElevenOutcome.httpFailure 401)).2
        = true ∧
     (synthesizeSpeech false ("hi") ("v1") (ElevenOutcome.httpFailure 429)).2
        = true ∧
     (synthesizeSpeech true ("hi") ("v1") (ElevenOutcome.ok [1])).1 =
       TTSResult.google googleVoiceConfig ∧
     (synthesizeSpeech true ("hi") ("v1") (ElevenOutcome.ok [1])).2 = true ∧
     googleVoiceConfig.languageCode = "en-US" ∧
     runSynthSequence true [("en", "v2", ElevenOutcome.httpFailure 500)]
        = true ∧
     languageInstruction true ("hi") ("Hindi") = LangDirective.englishOnly) :=
  ⟨by decide,
   C10_google_fallback_amended ("hi") ("v1") ("Hindi") (ElevenOutcome.ok [1])
     [("en", "v2", ElevenOutcome.httpFailure 500)] (by decide)⟩

set_option maxRecDepth 40000 in
/-- C6 counterexample: the claim says buffered audio is released iff its
length is greater than OR EQUAL to the minimum floor. In `atFloorState`, after
the silent 10-sample frame is appended the buffer holds exactly
`MIN_AUDIO_LENGTH` = 8000 samples and silence is confirmed (1000 ms elapsed >
800 ms), yet the code discards it (returns no audio), because the comparison
at line 736 is strict. -/
theorem C6_floor_counterexample :
    (processFrame atFloorState (List.replicate 10 0) 1000 false).2 = none ∧
    (atFloorState.audioBuffer ++ List.replicate 10 0).length =
      MIN_AUDIO_LENGTH := by
  have hlen : (atFloorState.audioBuffer ++ List.replicate 10 (0 : Int)).length
      = 8000 := by
    show (List.replicate 7990 (0 : Int) ++ List.replicate 10 0).length = 8000
    rw [List.length_append, List.length_replicate, List.length_replicate]
  have h := processFrame_silence_confirmed atFloorState (List.replicate 10 0)
    1000 0 rfl (isLoud_replicate_zero 10 SILENCE_THRESHOLD (by decide)) rfl
    (by decide)
  have hnot : ¬ MIN_AUDIO_LENGTH <
      (atFloorState.audioBuffer ++ List.replicate 10 (0 : Int)).length := by
    rw [hlen]
    decide
  constructor
  · rw [h, if_neg hnot]
  · rw [hlen]
    rfl

/-- C6 (amended): when sustained silence of the configured duration is
confirmed in a Recording session, the buffered audio (with the final silent
frame appended) is released for transcription if and only if its length is
STRICTLY greater than the minimum floor `MIN_AUDIO_LENGTH`; at or below the
floor it is discarded, the buffer is emptied and the session stops recording
(returns to Listening) without any transcription. -/
theorem C6_release_floor_amended (st : AgentState) (frame : List Int)
    (now t0 : Nat) (hrec : st.isRecording = true)
    (hquiet : isLoud frame SILENCE_THRESHOLD = false)
    (hstart : st.silenceStart = some t0)
    (hdur : SILENCE_DURATION < now - t0) :
    ((processFrame st frame now false).2 = some (st.audioBuffer ++ frame) ↔
      MIN_AUDIO_LENGTH < (st.audioBuffer ++ frame).length) ∧
    ((st.audioBuffer ++ frame).length ≤ MIN_AUDIO_LENGTH →
      (processFrame st frame now false).2 = none) ∧
    (processFrame st frame now false).1.audioBuffer = [] ∧
    (processFrame st frame now false).1.isRecording = false := by
  have h := processFrame_silence_confirmed st frame now t0 hrec hquiet hstart
    hdur
  rw [h]
  by_cases hlt : MIN_AUDIO_LENGTH < (st.audioBuffer ++ frame).length
  · refine ⟨?_, fun hle => absurd hlt (by omega), rfl, rfl⟩
    simp [if_pos hlt, hlt]
  · refine ⟨?_, fun _ => if_neg hlt, rfl, rfl⟩
    simp [if_neg hlt, hlt]

/-- C6 witness: the amended floor theorem applied to `atFloorState` with a
10-sample silent frame at time 1000. -/
theorem C6_release_floor_amended_witness :
    SILENCE_DURATION < 1000 - 0 ∧
    (((processFrame atFloorState (List.replicate 10 0) 1000 false).2 =
        some (atFloorState.audioBuffer ++ List.replicate 10 0) ↔
      MIN_AUDIO_LENGTH <
        (atFloorState.audioBuffer ++ List.replicate 10 0).length) ∧
     ((atFloorState.audioBuffer ++ List.replicate 10 0).length ≤
        MIN_AUDIO_LENGTH →
      (processFrame atFloorState (List.replicate 10 0) 1000 false).2 = none) ∧
     (processFrame atFloorState (List.replicate 10 0) 1000 false).1.audioBuffer
        = [] ∧
     (processFrame atFloorState (List.replicate 10 0) 1000 false).1.isRecording
        = false) :=
  ⟨by decide,
   C6_release_floor_amended atFloorState (List.replicate 10 0) 1000 0 rfl
     (isLoud_replicate_zero 10 SILENCE_THRESHOLD (by decide)) rfl (by decide)⟩

/-- C1 counterexample: the claim says a confirmed interrupt during Speaking
seeds the new RecordingBuffer with the InterruptCaptureBuffer contents, keeps
the captured interruption audio, stores the reply into InterruptedContext and
moves the session to Recording. In `speakingPlaybackState` (mid-playback, no
synthesis HTTP call in flight, 3 samples captured) a loud frame confirms the
interrupt, but after the interrupted branch of the turn the RecordingBuffer
is empty (nothing seeded), the capture buffer is discarded, the session is
not Recording, and InterruptedContext is empty because `interruptAI` stores
the text only when `activeStreams` holds a controller. -/
theorem C1_interrupt_counterexample :
    (speakingFrameStep speakingPlaybackState [1000] 0).shouldInterrupt =
      true ∧
    (finishTurn false
        (speakingFrameStep speakingPlaybackState [1000] 0)).audioBuffer
      = [] ∧
    (finishTurn false
        (speakingFrameStep speakingPlaybackState [1000] 0)).isRecording
      = false ∧
    (finishTurn false
        (speakingFrameStep speakingPlaybackState [1000] 0)).interruptBuffer
      = [] ∧
    (finishTurn false
        (speakingFrameStep speakingPlaybackState [1000] 0)).interruptedResponse
      = none := by
  decide

/-- C1 (amended): when the interrupt detector confirms speech during Speaking
(a loud frame with the speaking user set), the engine sets the interrupt flag
(cancelling playback at the next pipeline checkpoint) and aborts any in-flight
synthesis stream; the full reply text is stored into InterruptedContext
exactly when an in-flight synthesis stream existed at that moment (otherwise
the context is left as it was); the arriving frame is still captured into the
InterruptCaptureBuffer; and the interrupted branch of the turn then clears
the InterruptCaptureBuffer and leaves the RecordingBuffer empty with the
session back in Listening rather than Recording — the captured interruption
audio is discarded, not made the new RecordingBuffer seed. -/
theorem C1_barge_in_amended (st : AgentState) (frame : List Int) (now : Nat)
    (hloud : isLoud frame INTERRUPT_THRESHOLD = true)
    (huser : st.currentSpeakingUser = true) :
    (speakingFrameStep st frame now).shouldInterrupt = true ∧
    (st.activeStream = false →
      (speakingFrameStep st frame now).interruptedResponse =
        st.interruptedResponse) ∧
    (∀ t2, st.activeStream = true → st.currentResponse = some t2 →
      t2.isEmpty = false →
      (speakingFrameStep st frame now).interruptedResponse = some t2) ∧
    (speakingFrameStep st frame now).interruptBuffer =
      bufferInterruptAudio st.interruptBuffer frame ∧
    (finishTurn false (speakingFrameStep st frame now)).audioBuffer = [] ∧
    (finishTurn false (speakingFrameStep st frame now)).interruptBuffer
      = [] ∧
    (finishTurn false (speakingFrameStep st frame now)).isRecording = false ∧
    (finishTurn false (speakingFrameStep st frame now)).isSpeaking = false := by
  obtain ⟨f1, f2, f3, f4, f5, _, _⟩ :=
    finishTurn_fields false (speakingFrameStep st frame now)
  have hcond : FRAMES_FOR_INTERRUPT ≤ st.consecutiveSpeechFrames + 1 ∨
      MIN_INTERRUPT_DURATION_MS ≤
        now - (st.interruptStartTime.getD now) := by
    left
    show 1 ≤ st.consecutiveSpeechFrames + 1
    omega
  have hstep : speakingFrameStep st frame now =
      { (interruptAI
          { st with
              interruptBuffer := bufferInterruptAudio st.interruptBuffer frame,
              shouldInterrupt := true }
          st.currentResponse).2 with
        consecutiveSpeechFrames := 0, interruptStartTime := none } := by
    simp [speakingFrameStep, hloud, huser, hcond]
  obtain ⟨e1, e2, e3, e4⟩ := interruptAI_effect
    { st with interruptBuffer := bufferInterruptAudio st.interruptBuffer frame,
              shouldInterrupt := true } st.currentResponse
  refine ⟨?_, ?_, ?_, ?_, f3, f2, f4, f5⟩
  · rw [hstep]; exact e1
  · intro hact
    rw [hstep]; exact e3 hact
  · intro t2 hact hcur he
    rw [hstep]; exact e4 t2 hact hcur he
  · rw [hstep]; exact e2

/-- C1 witness: the amended barge-in theorem applied to
`speakingPlaybackState` and a loud single-sample frame. -/
theorem C1_barge_in_amended_witness :
    isLoud [1000] INTERRUPT_THRESHOLD = true ∧
    ((speakingFrameStep speakingPlaybackState [1000] 0).shouldInterrupt =
       true ∧
     (speakingPlaybackState.activeStream = false →
       (speakingFrameStep speakingPlaybackState [1000] 0).interruptedResponse
         = speakingPlaybackState.interruptedResponse) ∧
     (∀ t2, speakingPlaybackState.activeStream = true →
       speakingPlaybackState.currentResponse = some t2 →
       t2.isEmpty = false →
       (speakingFrameStep speakingPlaybackState [1000] 0).interruptedResponse
         = some t2) ∧
     (speakingFrameStep speakingPlaybackState [1000] 0).interruptBuffer =
       bufferInterruptAudio speakingPlaybackState.interruptBuffer [1000] ∧
     (finishTurn false
         (speakingFrameStep speakingPlaybackState [1000] 0)).audioBuffer
       = [] ∧
     (finishTurn false
         (speakingFrameStep speakingPlaybackState [1000] 0)).interruptBuffer
       = [] ∧
     (finishTurn false
         (speakingFrameStep speakingPlaybackState [1000] 0)).isRecording
       = false ∧
     (finishTurn false
         (speakingFrameStep speakingPlaybackState [1000] 0)).isSpeaking
       = false) :=
  ⟨by decide, C1_barge_in_amended speakingPlaybackState [1000] 0 (by decide)
    (by decide)⟩

/-- C2 counterexample: the claim says every cancellation observed at a
pipeline checkpoint records the full reply text for InterruptedContext. With
the interrupt flag raised before the first chunk of the reply "Hi!" (and no
synthesis HTTP call in flight, which is always the case at the pipeline's
own checkpoints in a sequential run), the pipeline stops and reports not
completed, flushes the 10 silence frames, but records nothing: the
interrupted context stays empty. -/
theorem C2_context_counterexample :
    (synthesizeAndPlayChunked speakingPlaybackState ['H', 'i', '!']
        (fun _ => some [1, 2]) (fun _ => true)).1 = false ∧
    (synthesizeAndPlayChunked speakingPlaybackState ['H', 'i', '!']
        (fun _ => some [1, 2]) (fun _ => true)).2.1 =
      List.replicate 10 PlayEvent.silenceFrame ∧
    (synthesizeAndPlayChunked speakingPlaybackState ['H', 'i', '!']
        (fun _ => some [1, 2]) (fun _ => true)).2.2.interruptedResponse
      = none := by
  decide

/-- C2 (amended): whenever the pipeline observes cancellation at any of its
checkpoints (before a chunk, immediately after a chunk's synthesis returns,
or before a sub-frame emission) it stops emitting and reports not completed,
and its whole outbound trace ends with the run of 10 silence frames pushed by
the `clearAudio` flush — nothing is emitted after the flush. The reply text,
however, is recorded for InterruptedContext only when an in-flight synthesis
stream exists for the user at the moment of the abort; at the pipeline's own
checkpoints no stream is in flight, so the pipeline's cancellation exits
leave the interrupted context unchanged (the recording happens instead in
the concurrent frame loop when it aborts a synthesis call that is still in
flight). -/
theorem C2_cancellation_amended (st : AgentState) (text : List Char)
    (synth : Nat → Option (List Int)) (ck : Nat → Bool)
    (hact : st.activeStream = false) :
    ((synthesizeAndPlayChunked st text synth ck).1 = false →
      ∃ p, (synthesizeAndPlayChunked st text synth ck).2.1 =
        p ++ List.replicate 10 PlayEvent.silenceFrame) ∧
    (synthesizeAndPlayChunked st text synth ck).2.2.interruptedResponse =
      st.interruptedResponse := by
  obtain ⟨h1, h2, _, _, _⟩ :=
    chunkLoop_inv text synth ck (splitIntoSentences text) st 0 0
  exact ⟨h1, (h2 hact).1⟩

/-- C2 witness: the amended cancellation theorem applied to the reply "Hi!"
with the interrupt flag permanently raised. -/
theorem C2_cancellation_amended_witness :
    speakingPlaybackState.activeStream = false ∧
    (((synthesizeAndPlayChunked speakingPlaybackState ['H', 'i', '!']
          (fun _ => some [1, 2]) (fun _ => true)).1 = false →
       ∃ p, (synthesizeAndPlayChunked speakingPlaybackState ['H', 'i', '!']
          (fun _ => some [1, 2]) (fun _ => true)).2.1 =
            p ++ List.replicate 10 PlayEvent.silenceFrame) ∧
     (synthesizeAndPlayChunked speakingPlaybackState ['H', 'i', '!']
        (fun _ => some [1, 2]) (fun _ => true)).2.2.interruptedResponse =
       speakingPlaybackState.interruptedResponse) :=
  ⟨rfl, C2_cancellation_amended speakingPlaybackState ['H', 'i', '!']
    (fun _ => some [1, 2]) (fun _ => true) rfl⟩

/-- C8: a synthesis-provider failure on one chunk of a three-chunk reply
(modelled by the synthesis oracle returning nothing for that chunk while no
cancellation is signalled) causes only that chunk to be skipped: the
remaining chunks are still synthesized and played in full, and the pipeline
reports the turn completed. -/
theorem C8_chunk_failure_resilience (st : AgentState)
    (text c1 c2 c3 : List Char) (a1 a3 : List Int)
    (synth : Nat → Option (List Int)) (ck : Nat → Bool)
    (h1 : 2 ≤ c1.length) (h2 : 2 ≤ c2.length) (h3 : 2 ≤ c3.length)
    (hs0 : synth 0 = some a1) (hs1 : synth 1 = none) (hs2 : synth 2 = some a3)
    (hck : ∀ n, ck n = false) :
    (chunkLoop text synth ck [c1, c2, c3] st 0 0).1 = true ∧
    (chunkLoop text synth ck [c1, c2, c3] st 0 0).2.1 =
      (subFrames a1).map PlayEvent.audioFrame ++
        (subFrames a3).map PlayEvent.audioFrame := by
  have pf1 := playFrames_noCancel ck hck (subFrames a1) 2
  have pf3 := playFrames_noCancel ck hck (subFrames a3)
    (2 + (subFrames a1).length + 2 + 2)
  rw [chunkLoop]
  simp only [if_neg (by omega : ¬ c1.length < 2), hck 0, hck 1,
             Bool.false_eq_true, if_false, hs0, pf1]
  rw [chunkLoop]
  simp only [if_neg (by omega : ¬ c2.length < 2),
             hck (2 + (subFrames a1).length),
             hck (2 + (subFrames a1).length + 1), Bool.false_eq_true,
             if_false, hs1]
  rw [chunkLoop]
  simp only [if_neg (by omega : ¬ c3.length < 2),
             hck (2 + (subFrames a1).length + 2),
             hck (2 + (subFrames a1).length + 2 + 1), Bool.false_eq_true,
             if_false, hs2]
  simp [chunkLoop, pf3]

/-- C8 witness: the chunk-failure theorem on three two-character chunks,
with the middle synthesis failing and the others returning short samples. -/
theorem C8_chunk_failure_resilience_witness :
    (fun i => if i = 1 then none else
       if i = 0 then some [1, 2] else some ([3] : List Int)) 1 = none ∧
    ((chunkLoop ['x'] (fun i => if i = 1 then none else
         if i = 0 then some [1, 2] else some [3]) (fun _ => false)
         [['a', 'b'], ['c', 'd'], ['e', 'f']] initialState 0 0).1 = true ∧
     (chunkLoop ['x'] (fun i => if i = 1 then none else
         if i = 0 then some [1, 2] else some [3]) (fun _ => false)
         [['a', 'b'], ['c', 'd'], ['e', 'f']] initialState 0 0).2.1 =
       (subFrames [1, 2]).map PlayEvent.audioFrame ++
         (subFrames [3]).map PlayEvent.audioFrame) :=
  ⟨by decide,
   C8_chunk_failure_resilience initialState ['x'] ['a', 'b'] ['c', 'd']
     ['e', 'f'] [1, 2] [3]
     (fun i => if i = 1 then none else if i = 0 then some [1, 2] else some [3])
     (fun _ => false) (by decide) (by decide) (by decide) (by decide)
     (by decide) (by decide) (fun n => rfl)⟩

/-! Lemmas reducing `runTurn` (claims C3 and C7). -/

theorem synthesizeAndPlayChunked_inv (st : AgentState) (text : List Char)
    (synth : Nat → Option (List Int)) (ck : Nat → Bool) :
    ((synthesizeAndPlayChunked st text synth ck).1 = true →
      (synthesizeAndPlayChunked st text synth ck).2.2.interruptedResponse =
        st.interruptedResponse) ∧
    (synthesizeAndPlayChunked st text synth ck).2.2.lastProcessedText =
      st.lastProcessedText ∧
    (synthesizeAndPlayChunked st text synth ck).2.2.lastProcessedTime =
      st.lastProcessedTime := by
  obtain ⟨_, _, h3, h4, h5⟩ :=
    chunkLoop_inv text synth ck (splitIntoSentences text) st 0 0
  exact ⟨h3, h4, h5⟩

theorem runTurn_spoke_eq (st : AgentState) (t : List Char) (now : Nat)
    (resp : List Char) (synth : Nat → Option (List Int)) (ck : Nat → Bool)
    (hempty : (trimChars t).isEmpty = false)
    (hdup : (isDuplicate st t now).1 = false) :
    runTurn st (some t) now resp synth ck =
      ⟨finishTurn
         (synthesizeAndPlayChunked
           (startSpeaking (getInterruptedContext (isDuplicate st t now).2).2
             resp) resp synth ck).1
         (synthesizeAndPlayChunked
           (startSpeaking (getInterruptedContext (isDuplicate st t now).2).2
             resp) resp synth ck).2.2,
       TurnOutcome.spoke,
       (synthesizeAndPlayChunked
         (startSpeaking (getInterruptedContext (isDuplicate st t now).2).2
           resp) resp synth ck).1,
       (synthesizeAndPlayChunked
         (startSpeaking (getInterruptedContext (isDuplicate st t now).2).2
           resp) resp synth ck).2.1⟩ := by
  simp [runTurn, hempty, hdup]

/-- C3: a turn that proceeds to Speaking and completes its playback without
interruption ends with the session back in Listening: the InterruptedContext
is empty (generation consumed any previous entry and the uninterrupted
pipeline never wrote one), the InterruptCaptureBuffer is cleared, the
RecordingBuffer is empty and both the recording and speaking flags are
off. -/
theorem C3_clean_completion (st : AgentState) (t : List Char) (now : Nat)
    (resp : List Char) (synth : Nat → Option (List Int)) (ck : Nat → Bool)
    (hspoke : (runTurn st (some t) now resp synth ck).outcome =
      TurnOutcome.spoke)
    (hdone : (runTurn st (some t) now resp synth ck).completed = true) :
    (runTurn st (some t) now resp synth ck).state.interruptedResponse =
      none ∧
    (runTurn st (some t) now resp synth ck).state.interruptBuffer = [] ∧
    (runTurn st (some t) now resp synth ck).state.audioBuffer = [] ∧
    (runTurn st (some t) now resp synth ck).state.isRecording = false ∧
    (runTurn st (some t) now resp synth ck).state.isSpeaking = false := by
  by_cases hempty : (trimChars t).isEmpty = true
  · rw [runTurn] at hspoke
    simp [hempty] at hspoke
  · by_cases hdup : (isDuplicate st t now).1 = true
    · rw [runTurn] at hspoke
      simp [hempty, hdup] at hspoke
    · rw [Bool.not_eq_true] at hempty hdup
      have heq := runTurn_spoke_eq st t now resp synth ck hempty hdup
      rw [heq] at hdone ⊢
      dsimp only at hdone ⊢
      obtain ⟨f1, f2, f3, f4, f5, _, _⟩ := finishTurn_fields
        (synthesizeAndPlayChunked
          (startSpeaking (getInterruptedContext (isDuplicate st t now).2).2
            resp) resp synth ck).1
        (synthesizeAndPlayChunked
          (startSpeaking (getInterruptedContext (isDuplicate st t now).2).2
            resp) resp synth ck).2.2
      obtain ⟨g1, _, _⟩ := synthesizeAndPlayChunked_inv
        (startSpeaking (getInterruptedContext (isDuplicate st t now).2).2
          resp) resp synth ck
      refine ⟨?_, f2, f3, f4, f5⟩
      rw [f1, g1 hdone]
      exact getInterruptedContext_clears _

/-- C3 witness: a full clean turn from the fresh session on transcript "hi"
with reply "Hi!", one synthesized chunk and no interrupt. -/
theorem C3_clean_completion_witness :
    (runTurn initialState (some ['h', 'i']) 0 ['H', 'i', '!']
        (fun _ => some [1, 2, 3]) (fun _ => false)).outcome =
      TurnOutcome.spoke ∧
    (runTurn initialState (some ['h', 'i']) 0 ['H', 'i', '!']
        (fun _ => some [1, 2, 3]) (fun _ => false)).completed = true ∧
    ((runTurn initialState (some ['h', 'i']) 0 ['H', 'i', '!']
        (fun _ => some [1, 2, 3]) (fun _ => false)).state.interruptedResponse
        = none ∧
     (runTurn initialState (some ['h', 'i']) 0 ['H', 'i', '!']
        (fun _ => some [1, 2, 3]) (fun _ => false)).state.interruptBuffer
        = [] ∧
     (runTurn initialState (some ['h', 'i']) 0 ['H', 'i', '!']
        (fun _ => some [1, 2, 3]) (fun _ => false)).state.audioBuffer = [] ∧
     (runTurn initialState (some ['h', 'i']) 0 ['H', 'i', '!']
        (fun _ => some [1, 2, 3]) (fun _ => false)).state.isRecording
        = false ∧
     (runTurn initialState (some ['h', 'i']) 0 ['H', 'i', '!']
        (fun _ => some [1, 2, 3]) (fun _ => false)).state.isSpeaking
        = false) :=
  ⟨by decide, by decide,
   C3_clean_completion initialState ['h', 'i'] 0 ['H', 'i', '!']
     (fun _ => some [1, 2, 3]) (fun _ => false) (by decide) (by decide)⟩

/-- C7: if a transcript is processed as a full turn (reaching generation) at
time `n1`, then submitting the identical transcript again within the
deduplication window (at `n2` with `n2 - n1 < DEDUP_WINDOW`) is detected as a
duplicate: the second turn short-circuits with no generation, no synthesis
and no outbound audio, so the pair yields at most one generation/synthesis
cycle. -/
theorem C7_duplicate_short_circuit (st : AgentState) (t : List Char)
    (n1 n2 : Nat) (resp1 resp2 : List Char)
    (synth1 synth2 : Nat → Option (List Int)) (ck1 ck2 : Nat → Bool)
    (hwin : n2 - n1 < DEDUP_WINDOW)
    (hspoke : (runTurn st (some t) n1 resp1 synth1 ck1).outcome =
      TurnOutcome.spoke) :
    (runTurn (runTurn st (some t) n1 resp1 synth1 ck1).state (some t) n2
        resp2 synth2 ck2).outcome = TurnOutcome.duplicateSkip ∧
    (runTurn (runTurn st (some t) n1 resp1 synth1 ck1).state (some t) n2
        resp2 synth2 ck2).events = [] := by
  by_cases hempty : (trimChars t).isEmpty = true
  · rw [runTurn] at hspoke
    simp [hempty] at hspoke
  · by_cases hdup : (isDuplicate st t n1).1 = true
    · rw [runTurn] at hspoke
      simp [hempty, hdup] at hspoke
    · rw [Bool.not_eq_true] at hdup
      have hempty2 := hempty
      rw [Bool.not_eq_true] at hempty2
      have hd2 := isDuplicate_false_state st t n1 hdup
      have heq := runTurn_spoke_eq st t n1 resp1 synth1 ck1 hempty2 hdup
      obtain ⟨_, _, _, _, _, f6, f7⟩ := finishTurn_fields
        (synthesizeAndPlayChunked
          (startSpeaking (getInterruptedContext (isDuplicate st t n1).2).2
            resp1) resp1 synth1 ck1).1
        (synthesizeAndPlayChunked
          (startSpeaking (getInterruptedContext (isDuplicate st t n1).2).2
            resp1) resp1 synth1 ck1).2.2
      obtain ⟨_, g2, g3⟩ := synthesizeAndPlayChunked_inv
        (startSpeaking (getInterruptedContext (isDuplicate st t n1).2).2
          resp1) resp1 synth1 ck1
      obtain ⟨gd1, gd2⟩ :=
        getInterruptedContext_dedup (isDuplicate st t n1).2
      have hlt : (runTurn st (some t) n1 resp1 synth1 ck1).state.lastProcessedText
          = some (normalizeText t) := by
        rw [heq]
        dsimp only
        rw [f6, g2]
        show (getInterruptedContext (isDuplicate st t n1).2).2.lastProcessedText
          = some (normalizeText t)
        rw [gd1, hd2]
      have hti : (runTurn st (some t) n1 resp1 synth1 ck1).state.lastProcessedTime
          = n1 := by
        rw [heq]
        dsimp only
        rw [f7, g3]
        show (getInterruptedContext (isDuplicate st t n1).2).2.lastProcessedTime
          = n1
        rw [gd2, hd2]
      have hdup2 : (isDuplicate
          (runTurn st (some t) n1 resp1 synth1 ck1).state t n2).1 = true := by
        simp only [isDuplicate]
        rw [if_pos ⟨by rw [hlt], by rw [hti]; exact hwin⟩]
      rw [runTurn]
      simp [hempty, hdup2]

/-- C7 witness: the fresh session speaks "Ok!" for transcript "hi" at time 0;
resubmitting "hi" at time 100 is skipped as a duplicate with no outbound
audio. -/
theorem C7_duplicate_short_circuit_witness :
    (100 : Nat) - 0 < DEDUP_WINDOW ∧
    (runTurn initialState (some ['h', 'i']) 0 ['O', 'k', '!']
        (fun _ => some [5]) (fun _ => false)).outcome = TurnOutcome.spoke ∧
    ((runTurn (runTurn initialState (some ['h', 'i']) 0 ['O', 'k', '!']
          (fun _ => some [5]) (fun _ => false)).state (some ['h', 'i']) 100
        ['N', 'o', '!'] (fun _ => some [9]) (fun _ => false)).outcome =
      TurnOutcome.duplicateSkip ∧
     (runTurn (runTurn initialState (some ['h', 'i']) 0 ['O', 'k', '!']
          (fun _ => some [5]) (fun _ => false)).state (some ['h', 'i']) 100
        ['N', 'o', '!'] (fun _ => some [9]) (fun _ => false)).events = []) :=
  ⟨by decide, by decide,
   C7_duplicate_short_circuit initialState ['h', 'i'] 0 100 ['O', 'k', '!']
     ['N', 'o', '!'] (fun _ => some [5]) (fun _ => some [9])
     (fun _ => false) (fun _ => false) (by decide) (by decide)⟩

end SoulmateAgent
